import Mathlib

/-!
# Verification of the RayTracer per-pixel rendering pipeline

Shallow embedding of `source/Renderer.cpp` (class `dae::Renderer`): the
per-pixel procedure `RenderPixel`, the frame dispatcher `Render` with its
three execution strategies, and `CycleLightingMode`.

Scalars are modelled as rationals.  The collaborators that live outside the
repository snapshot (`Vector3`, `ColorRGB`, `LightUtils`, `Scene`,
`Material`, `Camera`) are modelled from the specification: vectors and
colors get explicit componentwise definitions, while scene queries, light
queries and material shading are abstracted as function fields, exactly the
interface the renderer consumes.
-/

namespace RayTracer

/-- Structurally recursive integer square root helper: the largest `k ≤ fuel`
with `k * k ≤ n` (counting down from `fuel`). -/
def sqrtDown (n : ℕ) : ℕ → ℕ
  | 0 => 0
  | k + 1 => if (k + 1) * (k + 1) ≤ n then k + 1 else sqrtDown n k

/-- Floor square root on naturals (structural, so concrete instances reduce). -/
def natSqrt (n : ℕ) : ℕ := sqrtDown n n

theorem sqrtDown_le (n : ℕ) : ∀ k, sqrtDown n k ≤ k
  | 0 => le_refl _
  | k + 1 => by
    rw [sqrtDown]
    split
    · exact le_refl _
    · exact le_trans (sqrtDown_le n k) (Nat.le_succ k)

theorem sqrtDown_pos (n : ℕ) (hn : 1 ≤ n) : ∀ k, 1 ≤ k → 1 ≤ sqrtDown n k
  | 0, h => absurd h (by omega)
  | k + 1, _ => by
    rw [sqrtDown]
    split
    · omega
    · next hcond =>
      rcases Nat.eq_zero_or_pos k with hk | hk
      · subst hk
        omega
      · exact sqrtDown_pos n hn k hk

theorem natSqrt_pos {n : ℕ} (hn : 1 ≤ n) : 1 ≤ natSqrt n :=
  sqrtDown_pos n hn n hn

/-- Integer square root of the absolute-value part (mirrors `Int.sqrt`). -/
def intSqrt (z : ℤ) : ℤ := natSqrt z.toNat

theorem intSqrt_nonneg (z : ℤ) : 0 ≤ intSqrt z := Int.ofNat_nonneg _

theorem intSqrt_pos {z : ℤ} (hz : 0 < z) : 0 < intSqrt z := by
  have : 1 ≤ z.toNat := by omega
  have := natSqrt_pos this
  unfold intSqrt
  exact_mod_cast this

/-- Modelled from the spec: stand-in for the floating point square root used
by vector normalization (`Vector3::Normalize`).  Exact on perfect squares of
rationals (the only cases concrete witnesses use); approximate otherwise,
like `sqrtf` itself.  Nonnegative everywhere and positive on positive
inputs, which is all the control-flow claims depend on. -/
def ratSqrt (q : ℚ) : ℚ :=
  (intSqrt q.num : ℚ) / (natSqrt q.den : ℚ)

theorem ratSqrt_nonneg (q : ℚ) : 0 ≤ ratSqrt q := by
  unfold ratSqrt
  apply div_nonneg
  · exact_mod_cast intSqrt_nonneg _
  · exact_mod_cast Nat.zero_le _

theorem ratSqrt_pos {q : ℚ} (hq : 0 < q) : 0 < ratSqrt q := by
  unfold ratSqrt
  apply div_pos
  · exact_mod_cast intSqrt_pos (Rat.num_pos.mpr hq)
  · exact_mod_cast natSqrt_pos q.pos

theorem natSqrt_one : natSqrt 1 = 1 := by decide

theorem intSqrt_one : intSqrt 1 = 1 := by decide

theorem ratSqrt_one : ratSqrt 1 = 1 := by
  have h1 : (1 : ℚ).num = 1 := rfl
  have h2 : (1 : ℚ).den = 1 := rfl
  rw [ratSqrt, h1, h2, intSqrt_one, natSqrt_one]
  norm_num

/-- Modelled from the spec: 3-component vector (`Vector3`), rational
components. -/
structure Vec3 where
  x : ℚ
  y : ℚ
  z : ℚ
deriving DecidableEq, Repr

namespace Vec3

theorem ext' {a b : Vec3} (hx : a.x = b.x) (hy : a.y = b.y) (hz : a.z = b.z) :
    a = b := by
  cases a
  cases b
  simp_all

def add (a b : Vec3) : Vec3 := ⟨a.x + b.x, a.y + b.y, a.z + b.z⟩

def sub (a b : Vec3) : Vec3 := ⟨a.x - b.x, a.y - b.y, a.z - b.z⟩

def smul (c : ℚ) (v : Vec3) : Vec3 := ⟨c * v.x, c * v.y, c * v.z⟩

def neg (v : Vec3) : Vec3 := ⟨-v.x, -v.y, -v.z⟩

instance : Add Vec3 := ⟨add⟩
instance : Sub Vec3 := ⟨sub⟩
instance : Neg Vec3 := ⟨neg⟩
instance : Zero Vec3 := ⟨⟨0, 0, 0⟩⟩

/-- Dot product (`Vector3::Dot`). -/
def dot (a b : Vec3) : ℚ := a.x * b.x + a.y * b.y + a.z * b.z

/-- Squared length. -/
def normSq (v : Vec3) : ℚ := dot v v

/-- Modelled from the spec: length of a vector (the value returned by the
mutating `Vector3::Normalize`). -/
def norm (v : Vec3) : ℚ := ratSqrt (normSq v)

/-- Modelled from the spec: `Normalized` / the mutating `Normalize` — divide
every component by the length.  Normalizing the zero vector yields the zero
vector in this model (the code would produce non-finite floats there; no
claim exercises that case). -/
def normalize (v : Vec3) : Vec3 := smul (1 / norm v) v

theorem dot_smul_right (a : Vec3) (c : ℚ) (v : Vec3) :
    dot a (smul c v) = c * dot a v := by
  simp only [dot, smul]; ring

theorem normSq_nonneg (v : Vec3) : 0 ≤ normSq v := by
  have hx := sq_nonneg v.x
  have hy := sq_nonneg v.y
  have hz := sq_nonneg v.z
  simp only [normSq, dot]
  nlinarith

theorem normSq_pos_of_ne_zero {v : Vec3} (hv : v ≠ 0) : 0 < normSq v := by
  rcases lt_or_eq_of_le (normSq_nonneg v) with h | h
  · exact h
  · exfalso
    apply hv
    have hx := sq_nonneg v.x
    have hy := sq_nonneg v.y
    have hz := sq_nonneg v.z
    simp only [normSq, dot] at h
    have hx0 : v.x = 0 := by nlinarith
    have hy0 : v.y = 0 := by nlinarith
    have hz0 : v.z = 0 := by nlinarith
    exact ext' hx0 hy0 hz0

theorem norm_pos_of_ne_zero {v : Vec3} (hv : v ≠ 0) : 0 < norm v :=
  ratSqrt_pos (normSq_pos_of_ne_zero hv)

theorem norm_nonneg (v : Vec3) : 0 ≤ norm v := ratSqrt_nonneg _

/-- The sign of a dot product against a vector is preserved by normalizing
that vector, provided the vector is nonzero. -/
theorem dot_normalize_neg_iff (a : Vec3) {v : Vec3} (hv : v ≠ 0) :
    dot a (normalize v) < 0 ↔ dot a v < 0 := by
  have hpos : 0 < norm v := norm_pos_of_ne_zero hv
  have hc : 0 < 1 / norm v := by positivity
  rw [normalize, dot_smul_right]
  constructor
  · intro h
    by_contra hge
    push_neg at hge
    nlinarith
  · intro h
    exact mul_neg_of_pos_of_neg hc h

theorem dot_normalize_nonneg (a : Vec3) (v : Vec3) (h : 0 ≤ dot a v) :
    0 ≤ dot a (normalize v) := by
  have hc : 0 ≤ 1 / norm v := by
    have := norm_nonneg v
    positivity
  rw [normalize, dot_smul_right]
  exact mul_nonneg hc h

theorem normalize_of_normSq_one {v : Vec3} (h : normSq v = 1) :
    normalize v = v := by
  simp only [normalize, norm, h, ratSqrt_one]
  cases v
  simp [smul]

end Vec3

/-- Modelled from the spec: 3-channel color (`ColorRGB`), rational
channels. -/
structure ColorRGB where
  r : ℚ
  g : ℚ
  b : ℚ
deriving DecidableEq, Repr

namespace ColorRGB

/-- Modelled from the spec: `operator+=` / `operator+`, channelwise. -/
def add (a b : ColorRGB) : ColorRGB := ⟨a.r + b.r, a.g + b.g, a.b + b.b⟩

/-- Modelled from the spec: `operator*` on two colors, componentwise. -/
def mul (a b : ColorRGB) : ColorRGB := ⟨a.r * b.r, a.g * b.g, a.b * b.b⟩

/-- Modelled from the spec: `operator*` between a color and a scalar —
the scalar multiplies all channels. -/
def scale (a : ColorRGB) (c : ℚ) : ColorRGB := ⟨a.r * c, a.g * c, a.b * c⟩

instance : Add ColorRGB := ⟨add⟩
instance : Mul ColorRGB := ⟨mul⟩
instance : HMul ColorRGB ℚ ColorRGB := ⟨scale⟩
instance : Zero ColorRGB := ⟨⟨0, 0, 0⟩⟩

/-- Modelled from the spec: `ColorRGB::MaxToOne` — if any channel exceeds 1,
divide all channels by the maximum channel; otherwise leave the color
unchanged. -/
def maxToOne (c : ColorRGB) : ColorRGB :=
  let m := max c.r (max c.g c.b)
  if 1 < m then ⟨c.r / m, c.g / m, c.b / m⟩ else c

theorem maxToOne_zero : maxToOne 0 = 0 := by
  show maxToOne ⟨0, 0, 0⟩ = ⟨0, 0, 0⟩
  simp [maxToOne]

theorem zero_add' (c : ColorRGB) : (0 : ColorRGB) + c = c := by
  show add ⟨0, 0, 0⟩ c = c
  cases c
  simp [add]

end ColorRGB

/-- Modelled from the spec: a ray with origin, direction and valid
parametric interval.  Field order and defaults follow the spec: primary
rays use `min = 0` and an implicit "infinity" maximum, modelled by the
largest finite single-precision float value. -/
structure Ray where
  origin : Vec3
  direction : Vec3
  min : ℚ := 0
  max : ℚ := 340282346638528859811704183484516925440

/-- Modelled from the spec: `HitRecord` — hit flag, hit point (`origin`),
surface normal, material index and hit distance; non-flag fields are
meaningful only when `didHit` is true. -/
structure HitRecord where
  didHit : Bool := false
  origin : Vec3 := 0
  normal : Vec3 := 0
  materialIndex : ℕ := 0
  t : ℚ := 0

/-- Modelled from the spec: the material collaborator, reduced to the one
operation the renderer consumes — `Shade(hitRecord, lightDirection,
viewDirection)`, a side-effect-free BRDF evaluation. -/
structure Material where
  shade : HitRecord → Vec3 → Vec3 → ColorRGB

instance : Inhabited Material := ⟨⟨fun _ _ _ => 0⟩⟩

/-- Modelled from the spec: a light, reduced to the two `LightUtils`
queries the renderer consumes — `GetDirectionToLight(light, point)`
(non-normalized, length = distance to the light) and
`GetRadiance(light, point)`. -/
structure Light where
  directionToLight : Vec3 → Vec3
  radiance : Vec3 → ColorRGB

/-- Modelled from the spec: the scene collaborator — closest-hit query,
any-hit (occlusion) query, and read-only light and material sequences. -/
structure Scene where
  getClosestHit : Ray → HitRecord
  doesHit : Ray → Bool
  lights : List Light
  materials : List Material

/-- Modelled from the spec: the camera — origin and the camera-to-world
transform, already recomputed for the frame (`CalculateCameraToWorld` runs
before any pixel work); applied to directions only
(`Matrix::TransformVector`). -/
structure Camera where
  origin : Vec3
  cameraToWorld : Vec3 → Vec3

/-- Embedding of `Renderer::LightingMode` (`Renderer.h`): the 4-valued cyclic
enumeration selecting the per-light accumulation formula. -/
inductive LightingMode where
  | ObservedArea
  | Radiance
  | BRDF
  | Combined
deriving DecidableEq, Repr

/-- Embedding of `Renderer::CycleLightingMode` (`Renderer.cpp:211-229`): advance the
mode through the fixed cycle; the C++ `default` arm is unreachable for the
4-valued enumeration. -/
def cycleLightingMode : LightingMode → LightingMode
  | .ObservedArea => .Radiance
  | .Radiance => .BRDF
  | .BRDF => .Combined
  | .Combined => .ObservedArea

/-- From `Renderer.cpp:122-123`: decompose a flat pixel index into column and
row, `(px, py) = (pixelIndex % width, pixelIndex / width)`. -/
def pixelXY (width pixelIndex : ℕ) : ℕ × ℕ :=
  (pixelIndex % width, pixelIndex / width)

/-- From `Renderer.cpp:197`: the framebuffer offset written for a pixel,
`px + (py * m_Width)`. -/
def writeAddr (width pixelIndex : ℕ) : ℕ :=
  (pixelXY width pixelIndex).1 + (pixelXY width pixelIndex).2 * width

/-- From `Renderer.cpp:122-137`: build the view ray for a flat pixel index —
pixel center to normalized device coordinates to camera space `(x, y, 1)`,
transformed to world space and normalized.  `fov` stands for the
precomputed `tan(fovAngle / 2)` and `aspectRatio` for `width / height`,
both computed once in `Render`. -/
def viewRayOf (width height : ℕ) (fov aspectRatio : ℚ) (camera : Camera)
    (pixelIndex : ℕ) : Ray :=
  let px := (pixelXY width pixelIndex).1
  let py := (pixelXY width pixelIndex).2
  let rx : ℚ := px + 1/2
  let ry : ℚ := py + 1/2
  let x := (2 * (rx / width) - 1) * aspectRatio * fov
  let y := (1 - 2 * (ry / height)) * fov
  let cameraSpaceDir : Vec3 := ⟨x, y, 1⟩
  let rayDirection := (camera.cameraToWorld cameraSpaceDir).normalize
  { origin := camera.origin, direction := rayDirection }

/-- From `Renderer.cpp:148-158`: the shadow ray built for one light at a hit
point — `min` is set to `0.01` before the loop, `max` to the length
returned by the mutating `Normalize`, the direction to the normalized
direction-to-light, and the origin to the hit point offset by
`min * direction`. -/
def mkShadowRay (light : Light) (hitPoint : Vec3) : Ray :=
  let shadowDirRaw := light.directionToLight hitPoint
  let len := shadowDirRaw.norm
  let shadowDir := shadowDirRaw.normalize
  { origin := hitPoint + Vec3.smul (1/100) shadowDir,
    direction := shadowDir,
    min := 1/100,
    max := len }

/-- From `Renderer.cpp:170`: the two direction arguments passed to
`Material::Shade` — `shadowDir.Normalized()` (the already-normalized
direction-to-light, normalized again) and
`viewRay.direction.Normalized()`. -/
def shadeArgs (viewRay : Ray) (light : Light) (hitPoint : Vec3) :
    Vec3 × Vec3 :=
  (((light.directionToLight hitPoint).normalize).normalize,
    viewRay.direction.normalize)

/-- From `Renderer.cpp:168-188`: the value accumulated for a light that passed
culling and shadow testing, selected by the lighting-mode switch. -/
def modeContribution (mode : LightingMode) (materials : List Material)
    (viewRay : Ray) (closestHit : HitRecord) (light : Light) : ColorRGB :=
  let shadowDir := (light.directionToLight closestHit.origin).normalize
  let E := light.radiance closestHit.origin
  let args := shadeArgs viewRay light closestHit.origin
  let BRDFrgb := (materials.getD closestHit.materialIndex default).shade
    closestHit args.1 args.2
  match mode with
  | .ObservedArea =>
      (ColorRGB.mk 1 1 1) * Vec3.dot closestHit.normal shadowDir
  | .Radiance => E
  | .BRDF => BRDFrgb
  | .Combined =>
      E * BRDFrgb * Vec3.dot closestHit.normal shadowDir

/-- From `Renderer.cpp:153-189`: one iteration of the light loop — the color
added to `finalColor` for one light.  A `continue` (backface culling, or a
positive occlusion test while shadows are enabled) contributes zero. -/
def lightTerm (mode : LightingMode) (shadowsEnabled : Bool) (scene : Scene)
    (materials : List Material) (viewRay : Ray) (closestHit : HitRecord)
    (light : Light) : ColorRGB :=
  let shadowDir := (light.directionToLight closestHit.origin).normalize
  let shadowRay := mkShadowRay light closestHit.origin
  if Vec3.dot closestHit.normal shadowDir < 0 then 0
  else if scene.doesHit shadowRay && shadowsEnabled then 0
  else modeContribution mode materials viewRay closestHit light

/-- From `Renderer.cpp:120-190`: the accumulated pixel color — zero-initialized
`finalColor`, untouched when the view ray hits nothing, otherwise the sum
of the per-light terms in light order. -/
def renderPixelColor (mode : LightingMode) (shadowsEnabled : Bool)
    (scene : Scene) (width height : ℕ) (fov aspectRatio : ℚ)
    (camera : Camera) (pixelIndex : ℕ) : ColorRGB :=
  let viewRay := viewRayOf width height fov aspectRatio camera pixelIndex
  let closestHit := scene.getClosestHit viewRay
  if closestHit.didHit then
    scene.lights.foldl
      (fun acc light =>
        acc + lightTerm mode shadowsEnabled scene scene.materials viewRay
          closestHit light)
      0
  else 0

/-- From `Renderer.cpp:197-200`: one output channel — the clamped channel value
scaled by 255 and truncated to an integer (truncation and floor agree on
the non-negative values produced here; the spec states `floor`). -/
def toByte (c : ℚ) : ℤ := ⌊c * 255⌋

/-- From `Renderer.cpp:194-200`: the pixel value stored in the framebuffer —
`MaxToOne` clamping followed by per-channel byte conversion.  `SDL_MapRGB`
packing is external; the model keeps the byte triple. -/
def renderPixelBytes (mode : LightingMode) (shadowsEnabled : Bool)
    (scene : Scene) (width height : ℕ) (fov aspectRatio : ℚ)
    (camera : Camera) (pixelIndex : ℕ) : ℤ × ℤ × ℤ :=
  let c := (renderPixelColor mode shadowsEnabled scene width height fov
    aspectRatio camera pixelIndex).maxToOne
  (toByte c.r, toByte c.g, toByte c.b)

/-- From `Renderer.cpp:197`: each pixel task performs one store into
`m_pBufferPixels` at offset `writeAddr`; a frame is the sequence of such
stores for the pixel indices the execution strategy dispatches. -/
def applyWrites (width : ℕ) (pv : ℕ → ℤ × ℤ × ℤ)
    (buf : ℕ → ℤ × ℤ × ℤ) (ixs : List ℕ) : ℕ → ℤ × ℤ × ℤ :=
  ixs.foldl (fun b i => Function.update b (writeAddr width i) (pv i)) buf

/-- From `Renderer.cpp:35-118`, shared prologue plus one execution strategy:
render the frame by dispatching `RenderPixel` for each index in `ixs`,
with `aspectRatio = width / height` computed once per frame
(`Renderer.cpp:45`). -/
def renderFrameWith (ixs : List ℕ) (mode : LightingMode)
    (shadowsEnabled : Bool) (scene : Scene) (width height : ℕ) (fov : ℚ)
    (camera : Camera) (buf : ℕ → ℤ × ℤ × ℤ) : ℕ → ℤ × ℤ × ℤ :=
  applyWrites width
    (renderPixelBytes mode shadowsEnabled scene width height fov
      ((width : ℚ) / (height : ℚ)) camera)
    buf ixs

/-- From `Renderer.cpp:103-112` (the `#else` branch): the sequential strategy —
one loop over all pixel indices in increasing order. -/
def renderSeq (mode : LightingMode) (shadowsEnabled : Bool) (scene : Scene)
    (width height : ℕ) (fov : ℚ) (camera : Camera)
    (buf : ℕ → ℤ × ℤ × ℤ) : ℕ → ℤ × ℤ × ℤ :=
  renderFrameWith (List.range (width * height)) mode shadowsEnabled scene
    width height fov camera buf

/-- From `Renderer.cpp:64-85`: the per-core task sizes of the `ASYNC` strategy —
each core gets `numPixelsPerTask` indices, and while undistributed
remainder pixels remain, one extra index per core. -/
def asyncChunkSizes : ℕ → ℕ → ℕ → List ℕ
  | 0, _, _ => []
  | numCores + 1, perTask, unassigned =>
    if 0 < unassigned then
      (perTask + 1) :: asyncChunkSizes numCores perTask (unassigned - 1)
    else
      perTask :: asyncChunkSizes numCores perTask unassigned

/-- Contiguous chunks of pixel indices with the given sizes, starting at
`start`: the index ranges the `ASYNC` tasks iterate
(`Renderer.cpp:76-80`). -/
def chunkRanges : ℕ → List ℕ → List (List ℕ)
  | _, [] => []
  | start, sz :: rest => List.range' start sz :: chunkRanges (start + sz) rest

/-- From `Renderer.cpp:53-92` (the `ASYNC` branch): the multiset of pixel indices
rendered by the task-partitioned strategy, in task launch order —
`numPixels / numCores` indices per core with the `numPixels % numCores`
remainder distributed one extra index to the first chunks. -/
def asyncIndices (numCores numPixels : ℕ) : List ℕ :=
  (chunkRanges 0
    (asyncChunkSizes numCores (numPixels / numCores)
      (numPixels % numCores))).flatten

/-- From `Renderer.cpp:94-101` (the `PARALLEL_FOR` branch): the data-parallel
strategy hands every index in `[0, numPixels)` to the work-stealing loop;
the visit order is scheduler-chosen, so the model takes any `order` that is
a permutation of the index range. -/
def renderParallelFor (order : List ℕ) (mode : LightingMode)
    (shadowsEnabled : Bool) (scene : Scene) (width height : ℕ) (fov : ℚ)
    (camera : Camera) (buf : ℕ → ℤ × ℤ × ℤ) : ℕ → ℤ × ℤ × ℤ :=
  renderFrameWith order mode shadowsEnabled scene width height fov camera
    buf

/-- The task-partitioned strategy (`ASYNC`), as the stores it performs. -/
def renderAsync (numCores : ℕ) (mode : LightingMode)
    (shadowsEnabled : Bool) (scene : Scene) (width height : ℕ) (fov : ℚ)
    (camera : Camera) (buf : ℕ → ℤ × ℤ × ℤ) : ℕ → ℤ × ℤ × ℤ :=
  renderFrameWith (asyncIndices numCores (width * height)) mode
    shadowsEnabled scene width height fov camera buf

theorem writeAddr_eq (width pixelIndex : ℕ) :
    writeAddr width pixelIndex = pixelIndex := by
  unfold writeAddr pixelXY
  exact Nat.mod_add_div' pixelIndex width

/-- Each store targets the slot of its own pixel index, so the final buffer
holds, at every address in the dispatched index list, that pixel's color,
and elsewhere the initial contents. -/
theorem applyWrites_eq (width : ℕ) (pv : ℕ → ℤ × ℤ × ℤ) :
    ∀ (ixs : List ℕ) (buf : ℕ → ℤ × ℤ × ℤ),
      applyWrites width pv buf ixs
        = fun a => if a ∈ ixs then pv a else buf a
  | [], buf => by
    funext a
    simp [applyWrites]
  | i :: ixs, buf => by
    funext a
    show applyWrites width pv
      (Function.update buf (writeAddr width i) (pv i)) ixs a = _
    rw [congrFun (applyWrites_eq width pv ixs
      (Function.update buf (writeAddr width i) (pv i))) a]
    rw [writeAddr_eq]
    by_cases hl : a ∈ ixs
    · simp [hl]
    · by_cases hi : a = i
      · subst hi
        simp [hl, Function.update_apply]
      · simp [hl, hi, Function.update_apply]

theorem asyncChunkSizes_sum :
    ∀ (numCores perTask unassigned : ℕ),
      (asyncChunkSizes numCores perTask unassigned).sum
        = numCores * perTask + min numCores unassigned
  | 0, perTask, unassigned => by simp [asyncChunkSizes]
  | numCores + 1, perTask, unassigned => by
    rw [asyncChunkSizes]
    split
    · rw [List.sum_cons,
        asyncChunkSizes_sum numCores perTask (unassigned - 1),
        Nat.succ_mul]
      omega
    · rw [List.sum_cons, asyncChunkSizes_sum numCores perTask unassigned,
        Nat.succ_mul]
      omega

theorem chunkRanges_flatten :
    ∀ (sizes : List ℕ) (start : ℕ),
      (chunkRanges start sizes).flatten = List.range' start sizes.sum
  | [], start => by simp [chunkRanges]
  | sz :: rest, start => by
    rw [chunkRanges, List.flatten_cons,
      chunkRanges_flatten rest (start + sz), List.sum_cons,
      List.range'_append_1, Nat.add_comm]

/-- The contiguous chunks of the task-partitioned strategy cover the pixel
index range exactly once, in order. -/
theorem asyncIndices_eq_range (numCores numPixels : ℕ)
    (h : 0 < numCores) :
    asyncIndices numCores numPixels = List.range numPixels := by
  rw [asyncIndices, chunkRanges_flatten, asyncChunkSizes_sum]
  have hlt : numPixels % numCores < numCores := Nat.mod_lt _ h
  have hmin : min numCores (numPixels % numCores) = numPixels % numCores :=
    by omega
  rw [hmin, Nat.div_add_mod, List.range_eq_range']

/-! ## Claim theorems -/

/-- C6: for every hit point and every light, the shadow ray is constructed
with min bound `0.01`, max bound equal to the distance from the hit point
to the light (the length of the direction-to-light vector), direction equal
to the normalized direction-to-light, and origin equal to the hit point
offset by `min` times that direction — a bias along the light direction,
not along the surface normal. -/
theorem c6_shadow_ray_construction (light : Light) (hitPoint : Vec3) :
    (mkShadowRay light hitPoint).min = 1/100 ∧
    (mkShadowRay light hitPoint).max
      = (light.directionToLight hitPoint).norm ∧
    (mkShadowRay light hitPoint).direction
      = (light.directionToLight hitPoint).normalize ∧
    (mkShadowRay light hitPoint).origin
      = hitPoint + Vec3.smul (mkShadowRay light hitPoint).min
          (mkShadowRay light hitPoint).direction :=
  ⟨rfl, rfl, rfl, rfl⟩

/-- C8: for flat pixel indices and positive width, decomposition
`(px, py) = (i % width, i / width)` followed by recomposition
`px + py * width` returns `i` (and this recomposition is exactly the
framebuffer write offset `writeAddr`); the decomposition is a bijection
between `[0, width*height)` and `[0, width) × [0, height)`. -/
theorem c8_pixel_index_bijection (width height : ℕ) (hw : 0 < width) :
    (∀ i < width * height,
        writeAddr width i = i ∧
        (pixelXY width i).1 < width ∧ (pixelXY width i).2 < height) ∧
    (∀ px < width, ∀ py < height,
        px + py * width < width * height ∧
        pixelXY width (px + py * width) = (px, py)) := by
  constructor
  · intro i hi
    refine ⟨writeAddr_eq width i, Nat.mod_lt _ hw, ?_⟩
    show i / width < height
    rw [Nat.div_lt_iff_lt_mul hw]
    exact lt_of_lt_of_eq hi (Nat.mul_comm _ _)
  · intro px hpx py hpy
    constructor
    · calc px + py * width < width + py * width := by omega
        _ = (py + 1) * width := by ring
        _ ≤ height * width := Nat.mul_le_mul_right _ (by omega)
        _ = width * height := Nat.mul_comm _ _
    · unfold pixelXY
      have h1 : (px + py * width) % width = px := by
        rw [Nat.add_mul_mod_self_right]
        exact Nat.mod_eq_of_lt hpx
      have h2 : (px + py * width) / width = py := by
        rw [Nat.add_mul_div_right _ _ hw, Nat.div_eq_of_lt hpx]
        omega
      rw [h1, h2]

theorem c8_pixel_index_bijection_witness :
    (0 < 4 ∧ 7 < 4 * 3) ∧
    (writeAddr 4 7 = 7 ∧ (pixelXY 4 7).1 < 4 ∧ (pixelXY 4 7).2 < 3) ∧
    (3 + 2 * 4 < 4 * 3 ∧ pixelXY 4 (3 + 2 * 4) = (3, 2)) :=
  ⟨by decide,
    (c8_pixel_index_bijection 4 3 (by decide)).1 7 (by decide),
    (c8_pixel_index_bijection 4 3 (by decide)).2 3 (by decide) 2 (by decide)⟩

/-- C9: `CycleLightingMode` advances the mode in the fixed order
ObservedArea → Radiance → BRDF → Combined → ObservedArea, and applying it
exactly 4 times returns any mode to its starting value. -/
theorem c9_cycle_lighting_mode :
    cycleLightingMode .ObservedArea = .Radiance ∧
    cycleLightingMode .Radiance = .BRDF ∧
    cycleLightingMode .BRDF = .Combined ∧
    cycleLightingMode .Combined = .ObservedArea ∧
    ∀ m : LightingMode,
      cycleLightingMode (cycleLightingMode (cycleLightingMode
        (cycleLightingMode m))) = m := by
  refine ⟨rfl, rfl, rfl, rfl, ?_⟩
  intro m
  cases m <;> rfl

/-- A scene whose closest-hit query reports a miss everywhere: no lights,
no materials, no occluders. -/
def missScene : Scene :=
  { getClosestHit := fun _ => {},
    doesHit := fun _ => false,
    lights := [],
    materials := [] }

/-- A camera at the origin whose camera-to-world transform is the
identity. -/
def idCamera : Camera := ⟨0, fun v => v⟩

/-- An all-black initial framebuffer. -/
def zeroBuf : ℕ → ℤ × ℤ × ℤ := fun _ => (0, 0, 0)

/-- C2: for every scene, camera, lighting mode and framebuffer dimensions,
the three execution strategies produce identical output framebuffers.  The
task-partitioned strategy's contiguous chunks cover the pixel index range
`[0, width*height)` exactly once (first conjunct), so it performs exactly
the sequential strategy's stores (second conjunct); the data-parallel
strategy dispatches every index exactly once in a scheduler-chosen order,
and any such order yields the sequential framebuffer (third conjunct). -/
theorem c2_strategies_equivalent (numCores : ℕ) (order : List ℕ)
    (mode : LightingMode) (shadowsEnabled : Bool) (scene : Scene)
    (width height : ℕ) (fov : ℚ) (camera : Camera)
    (buf : ℕ → ℤ × ℤ × ℤ) (hc : 0 < numCores)
    (hperm : order.Perm (List.range (width * height))) :
    asyncIndices numCores (width * height)
      = List.range (width * height) ∧
    renderAsync numCores mode shadowsEnabled scene width height fov camera
        buf
      = renderSeq mode shadowsEnabled scene width height fov camera buf ∧
    renderParallelFor order mode shadowsEnabled scene width height fov
        camera buf
      = renderSeq mode shadowsEnabled scene width height fov camera buf := by
  have hasync := asyncIndices_eq_range numCores (width * height) hc
  refine ⟨hasync, ?_, ?_⟩
  · unfold renderAsync renderSeq
    rw [hasync]
  · unfold renderParallelFor renderSeq renderFrameWith
    rw [applyWrites_eq, applyWrites_eq]
    funext a
    by_cases h : a ∈ List.range (width * height)
    · rw [if_pos (hperm.mem_iff.mpr h), if_pos h]
    · rw [if_neg (fun hmem => h (hperm.mem_iff.mp hmem)), if_neg h]

theorem c2_strategies_equivalent_witness :
    (0 < 3 ∧ (List.range (2 * 2)).reverse.Perm (List.range (2 * 2))) ∧
    (asyncIndices 3 (2 * 2) = List.range (2 * 2) ∧
      renderAsync 3 .Combined true missScene 2 2 1 idCamera zeroBuf
        = renderSeq .Combined true missScene 2 2 1 idCamera zeroBuf ∧
      renderParallelFor (List.range (2 * 2)).reverse .Combined true
          missScene 2 2 1 idCamera zeroBuf
        = renderSeq .Combined true missScene 2 2 1 idCamera zeroBuf) :=
  ⟨⟨by decide, (List.range (2 * 2)).reverse_perm⟩,
    c2_strategies_equivalent 3 (List.range (2 * 2)).reverse .Combined true
      missScene 2 2 1 idCamera zeroBuf (by decide)
      (List.range (2 * 2)).reverse_perm⟩

theorem dot_zero_right (a : Vec3) : Vec3.dot a (0 : Vec3) = 0 := by
  show a.x * 0 + a.y * 0 + a.z * 0 = 0
  ring

/-- A hit record facing straight up the z axis. -/
def probeHit : HitRecord :=
  { didHit := true, origin := 0, normal := ⟨0, 0, 1⟩, materialIndex := 0,
    t := 1 }

/-- A view ray looking along +z. -/
def probeRay : Ray := { origin := 0, direction := ⟨0, 0, 1⟩ }

/-- A light straight above `probeHit` (front-facing). -/
def frontLight : Light :=
  { directionToLight := fun _ => ⟨0, 0, 1⟩, radiance := fun _ => ⟨1, 1, 1⟩ }

/-- A light straight below `probeHit` (backfacing). -/
def backLight : Light :=
  { directionToLight := fun _ => ⟨0, 0, -1⟩,
    radiance := fun _ => ⟨1, 1, 1⟩ }

/-- A scene whose any-hit query always reports an occluder. -/
def occludedScene : Scene :=
  { getClosestHit := fun _ => probeHit,
    doesHit := fun _ => true,
    lights := [frontLight],
    materials := [] }

/-- A scene whose any-hit query never reports an occluder. -/
def clearScene : Scene :=
  { getClosestHit := fun _ => probeHit,
    doesHit := fun _ => false,
    lights := [frontLight],
    materials := [] }

/-- C3: a light whose direction-to-light makes a negative dot product with
the surface normal is skipped entirely — it contributes zero under every
lighting mode, every shadow setting and every scene (in particular no
matter what the any-hit query would answer, since the shadow test is never
consulted). -/
theorem c3_backface_culling (mode : LightingMode) (shadowsEnabled : Bool)
    (scene : Scene) (materials : List Material) (viewRay : Ray)
    (closestHit : HitRecord) (light : Light)
    (h : Vec3.dot closestHit.normal
        (light.directionToLight closestHit.origin) < 0) :
    lightTerm mode shadowsEnabled scene materials viewRay closestHit light
      = 0 := by
  have hd : light.directionToLight closestHit.origin ≠ 0 := by
    intro h0
    rw [h0, dot_zero_right] at h
    exact absurd h (lt_irrefl 0)
  have hn := (Vec3.dot_normalize_neg_iff closestHit.normal hd).mpr h
  show (if Vec3.dot closestHit.normal
        ((light.directionToLight closestHit.origin).normalize) < 0
      then (0 : ColorRGB)
      else if scene.doesHit (mkShadowRay light closestHit.origin)
          && shadowsEnabled then (0 : ColorRGB)
      else modeContribution mode materials viewRay closestHit light) = 0
  rw [if_pos hn]

theorem c3_backface_culling_witness :
    Vec3.dot probeHit.normal (backLight.directionToLight probeHit.origin)
        < 0 ∧
    lightTerm .Combined true occludedScene [] probeRay probeHit backLight
        = 0 :=
  ⟨by simp [probeHit, backLight, Vec3.dot],
    c3_backface_culling .Combined true occludedScene [] probeRay probeHit
      backLight (by simp [probeHit, backLight, Vec3.dot])⟩

/-- C4: for a front-facing light, if shadow testing is enabled and the
any-hit query reports an occluder along the shadow ray then the light
contributes zero; if shadow testing is disabled the light's mode
contribution is accumulated regardless of the any-hit answer. -/
theorem c4_shadow_test_gate (mode : LightingMode) (scene : Scene)
    (materials : List Material) (viewRay : Ray) (closestHit : HitRecord)
    (light : Light)
    (hface : 0 ≤ Vec3.dot closestHit.normal
        (light.directionToLight closestHit.origin)) :
    (scene.doesHit (mkShadowRay light closestHit.origin) = true →
      lightTerm mode true scene materials viewRay closestHit light = 0) ∧
    lightTerm mode false scene materials viewRay closestHit light
      = modeContribution mode materials viewRay closestHit light := by
  have hnlt : ¬ Vec3.dot closestHit.normal
      ((light.directionToLight closestHit.origin).normalize) < 0 :=
    not_lt.mpr (Vec3.dot_normalize_nonneg closestHit.normal
      (light.directionToLight closestHit.origin) hface)
  constructor
  · intro hocc
    show (if Vec3.dot closestHit.normal
          ((light.directionToLight closestHit.origin).normalize) < 0
        then (0 : ColorRGB)
        else if scene.doesHit (mkShadowRay light closestHit.origin)
            && true then (0 : ColorRGB)
        else modeContribution mode materials viewRay closestHit light) = 0
    rw [if_neg hnlt, hocc]
    rfl
  · show (if Vec3.dot closestHit.normal
          ((light.directionToLight closestHit.origin).normalize) < 0
        then (0 : ColorRGB)
        else if scene.doesHit (mkShadowRay light closestHit.origin)
            && false then (0 : ColorRGB)
        else modeContribution mode materials viewRay closestHit light)
      = modeContribution mode materials viewRay closestHit light
    rw [if_neg hnlt, Bool.and_false]
    rfl

theorem c4_shadow_test_gate_witness :
    (0 ≤ Vec3.dot probeHit.normal
        (frontLight.directionToLight probeHit.origin) ∧
      occludedScene.doesHit (mkShadowRay frontLight probeHit.origin)
        = true) ∧
    lightTerm .Combined true occludedScene [] probeRay probeHit frontLight
        = 0 ∧
    lightTerm .Combined false occludedScene [] probeRay probeHit
        frontLight
      = modeContribution .Combined [] probeRay probeHit frontLight :=
  ⟨⟨by simp [probeHit, frontLight, Vec3.dot], rfl⟩,
    (c4_shadow_test_gate .Combined occludedScene [] probeRay probeHit
      frontLight (by simp [probeHit, frontLight, Vec3.dot])).1 rfl,
    (c4_shadow_test_gate .Combined occludedScene [] probeRay probeHit
      frontLight (by simp [probeHit, frontLight, Vec3.dot])).2⟩

/-- C5: under the Combined mode, a front-facing, unoccluded light adds
exactly the componentwise product `E * BRDF` scaled by
`cosTheta = dot(surface normal, normalized light direction)`, where `E` is
the light's radiance at the hit point and `BRDF` the material's Shade
result at the directions the renderer passes. -/
theorem c5_combined_accumulation (shadowsEnabled : Bool) (scene : Scene)
    (materials : List Material) (viewRay : Ray) (closestHit : HitRecord)
    (light : Light)
    (hface : 0 ≤ Vec3.dot closestHit.normal
        (light.directionToLight closestHit.origin))
    (hocc : scene.doesHit (mkShadowRay light closestHit.origin) = false) :
    lightTerm .Combined shadowsEnabled scene materials viewRay closestHit
        light
      = light.radiance closestHit.origin
          * ((materials.getD closestHit.materialIndex default).shade
              closestHit (shadeArgs viewRay light closestHit.origin).1
              (shadeArgs viewRay light closestHit.origin).2)
          * Vec3.dot closestHit.normal
              ((light.directionToLight closestHit.origin).normalize) := by
  have hnlt : ¬ Vec3.dot closestHit.normal
      ((light.directionToLight closestHit.origin).normalize) < 0 :=
    not_lt.mpr (Vec3.dot_normalize_nonneg closestHit.normal
      (light.directionToLight closestHit.origin) hface)
  show (if Vec3.dot closestHit.normal
        ((light.directionToLight closestHit.origin).normalize) < 0
      then (0 : ColorRGB)
      else if scene.doesHit (mkShadowRay light closestHit.origin)
          && shadowsEnabled then (0 : ColorRGB)
      else modeContribution .Combined materials viewRay closestHit light)
    = _
  rw [if_neg hnlt, hocc, Bool.false_and]
  rfl

theorem c5_combined_accumulation_witness :
    (0 ≤ Vec3.dot probeHit.normal
        (frontLight.directionToLight probeHit.origin) ∧
      clearScene.doesHit (mkShadowRay frontLight probeHit.origin)
        = false) ∧
    lightTerm .Combined true clearScene [] probeRay probeHit frontLight
      = frontLight.radiance probeHit.origin
          * (([] : List Material).getD probeHit.materialIndex
              default).shade probeHit
              (shadeArgs probeRay frontLight probeHit.origin).1
              (shadeArgs probeRay frontLight probeHit.origin).2
          * Vec3.dot probeHit.normal
              ((frontLight.directionToLight probeHit.origin).normalize) :=
  ⟨⟨by simp [probeHit, frontLight, Vec3.dot], rfl⟩,
    c5_combined_accumulation true clearScene [] probeRay probeHit
      frontLight (by simp [probeHit, frontLight, Vec3.dot]) rfl⟩

/-- C7: a pixel whose view ray produces no closest hit gets exactly black —
the accumulated color stays the zero color, and max-normalization plus byte
conversion store zero bytes. -/
theorem c7_miss_renders_black (mode : LightingMode)
    (shadowsEnabled : Bool) (scene : Scene) (width height : ℕ)
    (fov aspectRatio : ℚ) (camera : Camera) (pixelIndex : ℕ)
    (h : (scene.getClosestHit
        (viewRayOf width height fov aspectRatio camera
          pixelIndex)).didHit = false) :
    renderPixelColor mode shadowsEnabled scene width height fov
        aspectRatio camera pixelIndex = 0 ∧
    renderPixelBytes mode shadowsEnabled scene width height fov
        aspectRatio camera pixelIndex = (0, 0, 0) := by
  have hc : renderPixelColor mode shadowsEnabled scene width height fov
      aspectRatio camera pixelIndex = 0 := by
    unfold renderPixelColor
    simp only [h, Bool.false_eq_true, if_false]
  refine ⟨hc, ?_⟩
  show (toByte ((renderPixelColor mode shadowsEnabled scene width height
        fov aspectRatio camera pixelIndex).maxToOne).r,
      toByte ((renderPixelColor mode shadowsEnabled scene width height
        fov aspectRatio camera pixelIndex).maxToOne).g,
      toByte ((renderPixelColor mode shadowsEnabled scene width height
        fov aspectRatio camera pixelIndex).maxToOne).b) = (0, 0, 0)
  rw [hc, ColorRGB.maxToOne_zero]
  show (toByte 0, toByte 0, toByte 0) = (0, 0, 0)
  norm_num [toByte]

theorem c7_miss_renders_black_witness :
    (missScene.getClosestHit
        (viewRayOf 2 2 1 1 idCamera 0)).didHit = false ∧
    renderPixelColor .Combined true missScene 2 2 1 1 idCamera 0 = 0 ∧
    renderPixelBytes .Combined true missScene 2 2 1 1 idCamera 0
      = (0, 0, 0) :=
  ⟨rfl, c7_miss_renders_black .Combined true missScene 2 2 1 1 idCamera 0
    rfl⟩

/-- C10: with shadow testing disabled, the output framebuffer does not
depend on the any-hit query's answers — swapping the occlusion oracle for
any other, with every other scene ingredient unchanged, produces the
identical framebuffer. -/
theorem c10_shadows_disabled_noninterference (mode : LightingMode)
    (gch : Ray → HitRecord) (dh₁ dh₂ : Ray → Bool) (lights : List Light)
    (materials : List Material) (width height : ℕ) (fov : ℚ)
    (camera : Camera) (buf : ℕ → ℤ × ℤ × ℤ) :
    renderSeq mode false ⟨gch, dh₁, lights, materials⟩ width height fov
        camera buf
      = renderSeq mode false ⟨gch, dh₂, lights, materials⟩ width height
          fov camera buf := by
  have hterm : ∀ (dh : Ray → Bool) (matArg : List Material)
      (viewRay : Ray) (closestHit : HitRecord) (light : Light),
      lightTerm mode false ⟨gch, dh, lights, materials⟩ matArg viewRay
          closestHit light
        = if Vec3.dot closestHit.normal
              ((light.directionToLight closestHit.origin).normalize) < 0
          then (0 : ColorRGB)
          else modeContribution mode matArg viewRay closestHit light := by
    intro dh matArg viewRay closestHit light
    show (if Vec3.dot closestHit.normal
          ((light.directionToLight closestHit.origin).normalize) < 0
        then (0 : ColorRGB)
        else if Scene.doesHit ⟨gch, dh, lights, materials⟩
              (mkShadowRay light closestHit.origin)
            && false then (0 : ColorRGB)
        else modeContribution mode matArg viewRay closestHit light) = _
    rw [Bool.and_false]
    by_cases hlt : Vec3.dot closestHit.normal
        ((light.directionToLight closestHit.origin).normalize) < 0
    · rw [if_pos hlt, if_pos hlt]
    · rw [if_neg hlt, if_neg hlt]
      rfl
  have hcolor : ∀ i,
      renderPixelColor mode false ⟨gch, dh₁, lights, materials⟩ width
          height fov ((width : ℚ) / (height : ℚ)) camera i
        = renderPixelColor mode false ⟨gch, dh₂, lights, materials⟩ width
            height fov ((width : ℚ) / (height : ℚ)) camera i := by
    intro i
    unfold renderPixelColor
    simp only [hterm]
  unfold renderSeq renderFrameWith applyWrites
  congr 1
  funext b i
  unfold renderPixelBytes
  rw [hcolor i]

/-- Directions handed to Shade at the probe configuration: the claim as
stated would require the second argument to be the normalized negated view
direction, but the renderer passes the normalized view direction itself. -/
theorem c1_counterexample :
    (shadeArgs probeRay frontLight (0 : Vec3)).2
      ≠ (Vec3.neg probeRay.direction).normalize := by
  have h1 : (shadeArgs probeRay frontLight (0 : Vec3)).2
      = probeRay.direction.normalize := rfl
  have hv : Vec3.normSq probeRay.direction = 1 := by
    simp [probeRay, Vec3.normSq, Vec3.dot]
  have hn : Vec3.normSq (Vec3.neg probeRay.direction) = 1 := by
    simp [probeRay, Vec3.neg, Vec3.normSq, Vec3.dot]
  rw [h1, Vec3.normalize_of_normSq_one hv,
    Vec3.normalize_of_normSq_one hn]
  intro heq
  have hz := congrArg Vec3.z heq
  simp [probeRay, Vec3.neg] at hz
  norm_num at hz

/-- C1 (amended): the material's Shade is invoked with the (re-)normalized
light direction as first direction argument and the normalized view
direction — the view ray's direction itself, not its negation — as second:
when the view direction is unit length the second Shade argument equals
the view direction unchanged, and the accumulated BRDF value is Shade
evaluated at exactly these arguments. -/
theorem c1_shade_direction_arguments (viewRay : Ray) (light : Light)
    (p : Vec3) (materials : List Material) (closestHit : HitRecord)
    (h : Vec3.normSq viewRay.direction = 1) :
    (shadeArgs viewRay light p).1
      = ((light.directionToLight p).normalize).normalize ∧
    (shadeArgs viewRay light p).2 = viewRay.direction ∧
    modeContribution .BRDF materials viewRay closestHit light
      = (materials.getD closestHit.materialIndex default).shade closestHit
          (shadeArgs viewRay light closestHit.origin).1
          (shadeArgs viewRay light closestHit.origin).2 := by
  refine ⟨rfl, ?_, rfl⟩
  show viewRay.direction.normalize = viewRay.direction
  exact Vec3.normalize_of_normSq_one h

theorem c1_shade_direction_arguments_witness :
    Vec3.normSq probeRay.direction = 1 ∧
    ((shadeArgs probeRay frontLight (0 : Vec3)).1
        = ((frontLight.directionToLight
            (0 : Vec3)).normalize).normalize ∧
      (shadeArgs probeRay frontLight (0 : Vec3)).2 = probeRay.direction ∧
      modeContribution .BRDF [] probeRay probeHit frontLight
        = (([] : List Material).getD probeHit.materialIndex
            default).shade probeHit
            (shadeArgs probeRay frontLight probeHit.origin).1
            (shadeArgs probeRay frontLight probeHit.origin).2) :=
  ⟨by simp [probeRay, Vec3.normSq, Vec3.dot],
    c1_shade_direction_arguments probeRay frontLight (0 : Vec3) []
      probeHit (by simp [probeRay, Vec3.normSq, Vec3.dot])⟩

end RayTracer
